import Mathlib

/-!
Shallow embedding of the Headroom scroll state machine (src/Headroom.js).

JavaScript numbers are modelled as `JNum`: either NaN or an exact integer
(the claims under study involve only ordering, addition and subtraction).
Every comparison involving NaN is false, and arithmetic on NaN yields NaN,
matching the IEEE-754 comparison semantics the source relies on.

The DOM `classList` side effects are modelled as a record of booleans (one
per class name of the default configuration, which are pairwise distinct),
and each registered callback invocation is modelled as an emitted `Event`.
-/

/-- A JavaScript number: NaN, or a finite value modelled exactly as an integer. -/
inductive JNum where
  | nan : JNum
  | num : ℤ → JNum
deriving DecidableEq

/-- JavaScript `<` : false whenever an operand is NaN. -/
def jlt : JNum → JNum → Bool
  | JNum.num a, JNum.num b => decide (a < b)
  | _, _ => false

/-- JavaScript `<=` : false whenever an operand is NaN. -/
def jle : JNum → JNum → Bool
  | JNum.num a, JNum.num b => decide (a ≤ b)
  | _, _ => false

/-- JavaScript `>` : false whenever an operand is NaN. -/
def jgt : JNum → JNum → Bool
  | JNum.num a, JNum.num b => decide (b < a)
  | _, _ => false

/-- JavaScript `>=` : false whenever an operand is NaN. -/
def jge : JNum → JNum → Bool
  | JNum.num a, JNum.num b => decide (b ≤ a)
  | _, _ => false

/-- JavaScript `+` on numbers: NaN absorbs. -/
def jadd : JNum → JNum → JNum
  | JNum.num a, JNum.num b => JNum.num (a + b)
  | _, _ => JNum.nan

/-- JavaScript `-` on numbers: NaN absorbs. -/
def jsub : JNum → JNum → JNum
  | JNum.num a, JNum.num b => JNum.num (a - b)
  | _, _ => JNum.nan

/-- JavaScript `Math.abs`: NaN maps to NaN. -/
def jabs : JNum → JNum
  | JNum.num a => JNum.num (if a < 0 then -a else a)
  | JNum.nan => JNum.nan

/-- Scroll direction, the `"down"` / `"up"` strings of the source. -/
inductive Dir where
  | down : Dir
  | up : Dir
deriving DecidableEq

/-- Normalized tolerance object `{ down, up }`. -/
structure Tolerance where
  down : JNum
  up : JNum
deriving DecidableEq

/-- `this.tolerance[direction]`. -/
def Tolerance.get (t : Tolerance) : Dir → JNum
  | Dir.down => t.down
  | Dir.up => t.up

/-- The `tolerance` option as supplied: a scalar number or a `{down, up}` object. -/
inductive ToleranceOption where
  | scalar : JNum → ToleranceOption
  | pair : JNum → JNum → ToleranceOption

/-- `normalizeTolerance(t)`: an object is kept, a scalar is duplicated to both fields. -/
def normalizeTolerance : ToleranceOption → Tolerance
  | ToleranceOption.scalar t => { down := t, up := t }
  | ToleranceOption.pair d u => { down := d, up := u }

/-- The element's classList, one boolean per (distinct) class name of
`Headroom.options.classes`. -/
structure ClassList where
  pinned : Bool := false
  unpinned : Bool := false
  top : Bool := false
  notTop : Bool := false
  bottom : Bool := false
  notBottom : Bool := false
  frozenClass : Bool := false
deriving DecidableEq

/-- A callback invocation: `onPin`, `onUnpin`, `onTop`, `onNotTop`, `onBottom`,
`onNotBottom`. -/
inductive Event where
  | pin : Event
  | unpin : Event
  | top : Event
  | notTop : Event
  | bottom : Event
  | notBottom : Event
deriving DecidableEq

/-- One tick's scroll reading: `scrollSource.scrollY()`, `scrollSource.height()`,
`scrollSource.scrollHeight()`. -/
structure Reading where
  position : JNum
  viewportHeight : JNum
  contentHeight : JNum
deriving DecidableEq

/-- The mutable state of a Headroom instance (the fields the update cycle reads
and writes). -/
structure Headroom where
  lastKnownScrollY : JNum
  tolerance : Tolerance
  offset : JNum
  frozen : Bool
  classes : ClassList
deriving DecidableEq

/-- The constructor `function Headroom(elem, options)`: stores the options with
no validation; `lastKnownScrollY = 0`, `frozen = false`, no classes applied yet. -/
def mkHeadroom (offset : JNum) (tol : ToleranceOption) : Headroom :=
  { lastKnownScrollY := JNum.num 0
    tolerance := normalizeTolerance tol
    offset := offset
    frozen := false
    classes := {} }

/-- `unpin()`: fires when the pinned class is present or the unpinned class is
absent; adds unpinned, removes pinned. -/
def Headroom.unpin (s : Headroom) : Headroom × List Event :=
  if s.classes.pinned || !s.classes.unpinned then
    ({ s with classes := { s.classes with unpinned := true, pinned := false } },
      [Event.unpin])
  else (s, [])

/-- `pin()`: fires only when the unpinned class is present; removes unpinned,
adds pinned. -/
def Headroom.pin (s : Headroom) : Headroom × List Event :=
  if s.classes.unpinned then
    ({ s with classes := { s.classes with unpinned := false, pinned := true } },
      [Event.pin])
  else (s, [])

/-- `top()`: fires when the top class is absent; adds top, removes notTop. -/
def Headroom.top (s : Headroom) : Headroom × List Event :=
  if !s.classes.top then
    ({ s with classes := { s.classes with top := true, notTop := false } },
      [Event.top])
  else (s, [])

/-- `notTop()`: fires when the notTop class is absent; adds notTop, removes top. -/
def Headroom.notTop (s : Headroom) : Headroom × List Event :=
  if !s.classes.notTop then
    ({ s with classes := { s.classes with notTop := true, top := false } },
      [Event.notTop])
  else (s, [])

/-- `bottom()`: fires when the bottom class is absent; adds bottom, removes
notBottom. -/
def Headroom.bottom (s : Headroom) : Headroom × List Event :=
  if !s.classes.bottom then
    ({ s with classes := { s.classes with bottom := true, notBottom := false } },
      [Event.bottom])
  else (s, [])

/-- `notBottom()`: fires when the notBottom class is absent; adds notBottom,
removes bottom. -/
def Headroom.notBottom (s : Headroom) : Headroom × List Event :=
  if !s.classes.notBottom then
    ({ s with classes := { s.classes with notBottom := true, bottom := false } },
      [Event.notBottom])
  else (s, [])

/-- `isOutOfBounds(currentScrollY)`: past the top (`y < 0`) or past the bottom
(`y + height > scrollHeight`); the heights come from the scroll source, i.e.
the current reading. -/
def isOutOfBounds (y vh ch : JNum) : Bool :=
  jlt y (JNum.num 0) || jgt (jadd y vh) ch

/-- `toleranceExceeded(currentScrollY, direction)`:
`Math.abs(y - lastKnownScrollY) >= tolerance[direction]`. -/
def Headroom.toleranceExceeded (s : Headroom) (y : JNum) (d : Dir) : Bool :=
  jge (jabs (jsub y s.lastKnownScrollY)) (s.tolerance.get d)

/-- `shouldUnpin(currentScrollY, toleranceExceeded)`:
scrolling down (strict `>`), at or past the offset, and tolerance exceeded. -/
def Headroom.shouldUnpin (s : Headroom) (y : JNum) (te : Bool) : Bool :=
  jgt y s.lastKnownScrollY && jge y s.offset && te

/-- `shouldPin(currentScrollY, toleranceExceeded)`:
(scrolling up (strict `<`) and tolerance exceeded) or at/above the offset. -/
def Headroom.shouldPin (s : Headroom) (y : JNum) (te : Bool) : Bool :=
  (jlt y s.lastKnownScrollY && te) || jle y s.offset

/-- `update()`: one tick. Direction is `"down"` iff `y > lastKnownScrollY`
(equality classifies as `"up"`); guards run in source order (out-of-bounds,
frozen), then the top axis, the bottom axis, the pin axis (unpin before pin),
and finally `lastKnownScrollY = y`. Emitted events are in call order. -/
def Headroom.update (s : Headroom) (r : Reading) : Headroom × List Event :=
  let y := r.position
  let dir := if jgt y s.lastKnownScrollY then Dir.down else Dir.up
  let te := s.toleranceExceeded y dir
  if isOutOfBounds y r.viewportHeight r.contentHeight then (s, [])
  else if s.frozen then ({ s with lastKnownScrollY := y }, [])
  else
    let p1 := if jle y s.offset then s.top else s.notTop
    let p2 := if jge (jadd y r.viewportHeight) r.contentHeight then p1.1.bottom
              else p1.1.notBottom
    let p3 := if p2.1.shouldUnpin y te then p2.1.unpin
              else if p2.1.shouldPin y te then p2.1.pin
              else (p2.1, [])
    ({ p3.1 with lastKnownScrollY := y }, p1.2 ++ p2.2 ++ p3.2)

/-- `freeze()`: sets the frozen flag and adds the frozen class; no callback. -/
def Headroom.freeze (s : Headroom) : Headroom :=
  { s with frozen := true, classes := { s.classes with frozenClass := true } }

/-- `unfreeze()`: clears the frozen flag and removes the frozen class; no
callback. -/
def Headroom.unfreeze (s : Headroom) : Headroom :=
  { s with frozen := false, classes := { s.classes with frozenClass := false } }

/-- An externally invokable mutating operation: an update tick or a direct call
to one of the six transition methods. -/
inductive Op where
  | update : Reading → Op
  | pin : Op
  | unpin : Op
  | top : Op
  | notTop : Op
  | bottom : Op
  | notBottom : Op

/-- Apply one operation, keeping the resulting state. -/
def applyOp (s : Headroom) : Op → Headroom
  | Op.update r => (s.update r).1
  | Op.pin => s.pin.1
  | Op.unpin => s.unpin.1
  | Op.top => s.top.1
  | Op.notTop => s.notTop.1
  | Op.bottom => s.bottom.1
  | Op.notBottom => s.notBottom.1

/-- Run a sequence of operations from a state. -/
def runOps (s : Headroom) : List Op → Headroom
  | [] => s
  | o :: os => runOps (applyOp s o) os

/-- Run a sequence of update ticks, collecting the emitted events in order. -/
def runUpdates (s : Headroom) : List Reading → Headroom × List Event
  | [] => (s, [])
  | r :: rs =>
    let p := s.update r
    let q := runUpdates p.1 rs
    (q.1, p.2 ++ q.2)

/-- The element does not carry both the pinned and the unpinned class. -/
def pinPairOK (c : ClassList) : Bool := !(c.pinned && c.unpinned)

/-- The element does not carry both the top and the notTop class. -/
def topPairOK (c : ClassList) : Bool := !(c.top && c.notTop)

/-- The element does not carry both the bottom and the notBottom class. -/
def bottomPairOK (c : ClassList) : Bool := !(c.bottom && c.notBottom)

/-- Fold an event list into the flag "an unpin event has been seen", starting
from `seen`. -/
def seenAfter (seen : Bool) : List Event → Bool
  | [] => seen
  | Event.unpin :: rest => seenAfter true rest
  | _ :: rest => seenAfter seen rest

/-- Every pin event in the list is strictly preceded by an unpin event (or the
`seen` flag says one was already emitted earlier). -/
def pinAfterUnpin (seen : Bool) : List Event → Bool
  | [] => true
  | Event.pin :: rest => seen && pinAfterUnpin seen rest
  | Event.unpin :: rest => pinAfterUnpin true rest
  | _ :: rest => pinAfterUnpin seen rest

/-- A concrete settled state: position 50 was the last reading, zero offset and
tolerance, header unpinned, away from the top and the bottom. -/
def settled50 : Headroom :=
  { lastKnownScrollY := JNum.num 50
    tolerance := { down := JNum.num 0, up := JNum.num 0 }
    offset := JNum.num 0
    frozen := false
    classes := { unpinned := true, notTop := true, notBottom := true } }

/-- A concrete state at the very top: position 0, header unpinned, top class
set. -/
def atTop0 : Headroom :=
  { lastKnownScrollY := JNum.num 0
    tolerance := { down := JNum.num 0, up := JNum.num 0 }
    offset := JNum.num 0
    frozen := false
    classes := { unpinned := true, top := true, notBottom := true } }

/-- A concrete state with offset 10, last position 5, a large tolerance, header
unpinned, top class set. -/
def nearOffsetHiTol : Headroom :=
  { lastKnownScrollY := JNum.num 5
    tolerance := { down := JNum.num 10, up := JNum.num 10 }
    offset := JNum.num 10
    frozen := false
    classes := { unpinned := true, top := true, notBottom := true } }

/-- `nearOffsetHiTol` with the tolerance lowered to zero on both fields. -/
def nearOffsetLoTol : Headroom :=
  { nearOffsetHiTol with tolerance := { down := JNum.num 0, up := JNum.num 0 } }

/-- `unpin` touches only the pinned/unpinned classes. -/
lemma unpin_preserves (s : Headroom) :
    s.unpin.1.classes.top = s.classes.top ∧
    s.unpin.1.classes.notTop = s.classes.notTop ∧
    s.unpin.1.classes.bottom = s.classes.bottom ∧
    s.unpin.1.classes.notBottom = s.classes.notBottom ∧
    s.unpin.1.lastKnownScrollY = s.lastKnownScrollY ∧
    s.unpin.1.offset = s.offset ∧
    s.unpin.1.tolerance = s.tolerance ∧
    s.unpin.1.frozen = s.frozen := by
  unfold Headroom.unpin
  split <;> exact ⟨rfl, rfl, rfl, rfl, rfl, rfl, rfl, rfl⟩

/-- `pin` touches only the pinned/unpinned classes. -/
lemma pin_preserves (s : Headroom) :
    s.pin.1.classes.top = s.classes.top ∧
    s.pin.1.classes.notTop = s.classes.notTop ∧
    s.pin.1.classes.bottom = s.classes.bottom ∧
    s.pin.1.classes.notBottom = s.classes.notBottom ∧
    s.pin.1.lastKnownScrollY = s.lastKnownScrollY ∧
    s.pin.1.offset = s.offset ∧
    s.pin.1.tolerance = s.tolerance ∧
    s.pin.1.frozen = s.frozen := by
  unfold Headroom.pin
  split <;> exact ⟨rfl, rfl, rfl, rfl, rfl, rfl, rfl, rfl⟩

/-- `top` touches only the top/notTop classes. -/
lemma top_preserves (s : Headroom) :
    s.top.1.classes.pinned = s.classes.pinned ∧
    s.top.1.classes.unpinned = s.classes.unpinned ∧
    s.top.1.classes.bottom = s.classes.bottom ∧
    s.top.1.classes.notBottom = s.classes.notBottom ∧
    s.top.1.lastKnownScrollY = s.lastKnownScrollY ∧
    s.top.1.offset = s.offset ∧
    s.top.1.tolerance = s.tolerance ∧
    s.top.1.frozen = s.frozen := by
  unfold Headroom.top
  split <;> exact ⟨rfl, rfl, rfl, rfl, rfl, rfl, rfl, rfl⟩

/-- `notTop` touches only the top/notTop classes. -/
lemma notTop_preserves (s : Headroom) :
    s.notTop.1.classes.pinned = s.classes.pinned ∧
    s.notTop.1.classes.unpinned = s.classes.unpinned ∧
    s.notTop.1.classes.bottom = s.classes.bottom ∧
    s.notTop.1.classes.notBottom = s.classes.notBottom ∧
    s.notTop.1.lastKnownScrollY = s.lastKnownScrollY ∧
    s.notTop.1.offset = s.offset ∧
    s.notTop.1.tolerance = s.tolerance ∧
    s.notTop.1.frozen = s.frozen := by
  unfold Headroom.notTop
  split <;> exact ⟨rfl, rfl, rfl, rfl, rfl, rfl, rfl, rfl⟩

/-- `bottom` touches only the bottom/notBottom classes. -/
lemma bottom_preserves (s : Headroom) :
    s.bottom.1.classes.pinned = s.classes.pinned ∧
    s.bottom.1.classes.unpinned = s.classes.unpinned ∧
    s.bottom.1.classes.top = s.classes.top ∧
    s.bottom.1.classes.notTop = s.classes.notTop ∧
    s.bottom.1.lastKnownScrollY = s.lastKnownScrollY ∧
    s.bottom.1.offset = s.offset ∧
    s.bottom.1.tolerance = s.tolerance ∧
    s.bottom.1.frozen = s.frozen := by
  unfold Headroom.bottom
  split <;> exact ⟨rfl, rfl, rfl, rfl, rfl, rfl, rfl, rfl⟩

/-- `notBottom` touches only the bottom/notBottom classes. -/
lemma notBottom_preserves (s : Headroom) :
    s.notBottom.1.classes.pinned = s.classes.pinned ∧
    s.notBottom.1.classes.unpinned = s.classes.unpinned ∧
    s.notBottom.1.classes.top = s.classes.top ∧
    s.notBottom.1.classes.notTop = s.classes.notTop ∧
    s.notBottom.1.lastKnownScrollY = s.lastKnownScrollY ∧
    s.notBottom.1.offset = s.offset ∧
    s.notBottom.1.tolerance = s.tolerance ∧
    s.notBottom.1.frozen = s.frozen := by
  unfold Headroom.notBottom
  split <;> exact ⟨rfl, rfl, rfl, rfl, rfl, rfl, rfl, rfl⟩

/-- The only event `unpin` can emit is the unpin event. -/
lemma mem_unpin_events (s : Headroom) (e : Event) (h : e ∈ s.unpin.2) :
    e = Event.unpin := by
  unfold Headroom.unpin at h
  split at h <;> simp_all

/-- The only event `pin` can emit is the pin event. -/
lemma mem_pin_events (s : Headroom) (e : Event) (h : e ∈ s.pin.2) :
    e = Event.pin := by
  unfold Headroom.pin at h
  split at h <;> simp_all

/-- The only event `top` can emit is the top event. -/
lemma mem_top_events (s : Headroom) (e : Event) (h : e ∈ s.top.2) :
    e = Event.top := by
  unfold Headroom.top at h
  split at h <;> simp_all

/-- The only event `notTop` can emit is the notTop event. -/
lemma mem_notTop_events (s : Headroom) (e : Event) (h : e ∈ s.notTop.2) :
    e = Event.notTop := by
  unfold Headroom.notTop at h
  split at h <;> simp_all

/-- The only event `bottom` can emit is the bottom event. -/
lemma mem_bottom_events (s : Headroom) (e : Event) (h : e ∈ s.bottom.2) :
    e = Event.bottom := by
  unfold Headroom.bottom at h
  split at h <;> simp_all

/-- The only event `notBottom` can emit is the notBottom event. -/
lemma mem_notBottom_events (s : Headroom) (e : Event) (h : e ∈ s.notBottom.2) :
    e = Event.notBottom := by
  unfold Headroom.notBottom at h
  split at h <;> simp_all

/-- `bottom` leaves the bottom class set. -/
lemma bottom_sets (s : Headroom) : s.bottom.1.classes.bottom = true := by
  unfold Headroom.bottom
  split <;> simp_all

/-- `notTop` leaves the notTop class set. -/
lemma notTop_sets (s : Headroom) : s.notTop.1.classes.notTop = true := by
  unfold Headroom.notTop
  split <;> simp_all

/-- `notBottom` leaves the notBottom class set. -/
lemma notBottom_sets (s : Headroom) : s.notBottom.1.classes.notBottom = true := by
  unfold Headroom.notBottom
  split <;> simp_all

/-- `bottom` fires exactly when the bottom class was absent. -/
lemma bottom_fires_iff (s : Headroom) :
    Event.bottom ∈ s.bottom.2 ↔ s.classes.bottom = false := by
  unfold Headroom.bottom
  split <;> simp_all

/-- `notTop` fires exactly when the notTop class was absent. -/
lemma notTop_fires_iff (s : Headroom) :
    Event.notTop ∈ s.notTop.2 ↔ s.classes.notTop = false := by
  unfold Headroom.notTop
  split <;> simp_all

/-- `notBottom` fires exactly when the notBottom class was absent. -/
lemma notBottom_fires_iff (s : Headroom) :
    Event.notBottom ∈ s.notBottom.2 ↔ s.classes.notBottom = false := by
  unfold Headroom.notBottom
  split <;> simp_all

/-- C3 counterexample: constructing with offset -1 and scalar tolerance -2
succeeds and stores the negative values unchanged — there is no configuration
error and no clamping, refuting rejection at construction. -/
theorem mkHeadroom_accepts_negative_cex :
    (mkHeadroom (JNum.num (-1)) (ToleranceOption.scalar (JNum.num (-2)))).offset
        = JNum.num (-1) ∧
    (mkHeadroom (JNum.num (-1)) (ToleranceOption.scalar (JNum.num (-2)))).tolerance
        = { down := JNum.num (-2), up := JNum.num (-2) } := by
  exact ⟨rfl, rfl⟩

/-- C3 amended: construction performs no validation at all — any offset and any
tolerance (negative ones included) are accepted; the tolerance is normalized
(a scalar is duplicated to both fields) and both values are stored unchanged. -/
theorem mkHeadroom_no_validation (off : JNum) (tol : ToleranceOption) :
    (mkHeadroom off tol).offset = off ∧
    (mkHeadroom off tol).tolerance = normalizeTolerance tol ∧
    (mkHeadroom off tol).lastKnownScrollY = JNum.num 0 ∧
    (mkHeadroom off tol).frozen = false :=
  ⟨rfl, rfl, rfl, rfl⟩

/-- C4: an out-of-bounds reading (position past the top or position plus
viewport height past the content height) makes `update` return with the whole
state unchanged and no callback fired. -/
theorem update_out_of_bounds_noop (s : Headroom) (r : Reading)
    (h : jlt r.position (JNum.num 0) = true ∨
      jgt (jadd r.position r.viewportHeight) r.contentHeight = true) :
    s.update r = (s, []) := by
  have hb : isOutOfBounds r.position r.viewportHeight r.contentHeight = true := by
    unfold isOutOfBounds
    rcases h with h | h <;> simp [h]
  unfold Headroom.update
  simp [hb]

/-- C4 witness: position -5 with viewport 500 and content 2000 leaves a fresh
instance untouched. -/
theorem update_out_of_bounds_noop_witness :
    (mkHeadroom (JNum.num 0) (ToleranceOption.scalar (JNum.num 0))).update
        ⟨JNum.num (-5), JNum.num 500, JNum.num 2000⟩
      = (mkHeadroom (JNum.num 0) (ToleranceOption.scalar (JNum.num 0)), []) :=
  update_out_of_bounds_noop _ _ (Or.inl (by decide))

/-- C5: on an in-bounds tick of a frozen instance, the only change is that
`lastKnownScrollY` becomes the reading's position; no classes change and no
callback fires. -/
theorem update_frozen_tracks_position_only (s : Headroom) (r : Reading)
    (hf : s.frozen = true)
    (hb : isOutOfBounds r.position r.viewportHeight r.contentHeight = false) :
    s.update r = ({ s with lastKnownScrollY := r.position }, []) := by
  unfold Headroom.update
  simp [hb, hf]

/-- C5 witness: a frozen fresh instance fed position 200 only moves
`lastKnownScrollY` to 200. -/
theorem update_frozen_tracks_position_only_witness :
    ((mkHeadroom (JNum.num 0) (ToleranceOption.scalar (JNum.num 0))).freeze).update
        ⟨JNum.num 200, JNum.num 500, JNum.num 2000⟩
      = ({ (mkHeadroom (JNum.num 0) (ToleranceOption.scalar (JNum.num 0))).freeze with
            lastKnownScrollY := JNum.num 200 }, []) :=
  update_frozen_tracks_position_only _ _ (by decide) (by decide)

/-- C6: each of the six transition methods is idempotent — immediately invoking
the same transition again changes nothing and fires no callback, so the
callback fires at most once across the two calls. -/
theorem transitions_idempotent (s : Headroom) :
    s.pin.1.pin = (s.pin.1, []) ∧
    s.unpin.1.unpin = (s.unpin.1, []) ∧
    s.top.1.top = (s.top.1, []) ∧
    s.notTop.1.notTop = (s.notTop.1, []) ∧
    s.bottom.1.bottom = (s.bottom.1, []) ∧
    s.notBottom.1.notBottom = (s.notBottom.1, []) := by
  refine ⟨?_, ?_, ?_, ?_, ?_, ?_⟩ <;>
    first
    | (cases h : s.classes.unpinned <;>
        simp [Headroom.pin, h])
    | (unfold Headroom.unpin
       split <;> simp_all [Headroom.unpin])
    | (unfold Headroom.top
       split <;> simp_all [Headroom.top])
    | (unfold Headroom.notTop
       split <;> simp_all [Headroom.notTop])
    | (unfold Headroom.bottom
       split <;> simp_all [Headroom.bottom])
    | (unfold Headroom.notBottom
       split <;> simp_all [Headroom.notBottom])

/-- On an equal-position tick above the offset, the pin-axis step of `update`
is a no-op: `shouldUnpin` fails on the strict `>` and `shouldPin` fails on the
strict `<` and on the offset test. -/
lemma pinStep_noop (t : Headroom) (q : ℤ) (te : Bool)
    (hl : t.lastKnownScrollY = JNum.num q)
    (ho : jle (JNum.num q) t.offset = false) :
    (if t.shouldUnpin (JNum.num q) te then t.unpin
     else if t.shouldPin (JNum.num q) te then t.pin else (t, [])) = (t, []) := by
  have h1 : t.shouldUnpin (JNum.num q) te = false := by
    simp [Headroom.shouldUnpin, hl, jgt]
  have h2 : t.shouldPin (JNum.num q) te = false := by
    simp [Headroom.shouldPin, hl, ho, jlt]
  simp [h1, h2]

/-- C1 amended: an equal-position tick is classified as direction "up" (the
`>` comparison), and that direction selects the up tolerance; but `shouldPin`
tests the strict `<` separately, so on an in-bounds non-frozen equal-position
tick with position above the offset the pin axis is left unchanged and no
pin/unpin callback fires — pinning on an equal-position tick happens only via
`position <= offset`. -/
theorem update_equal_position_pin_only_below_offset (s : Headroom) (r : Reading) (q : ℤ)
    (hp : r.position = JNum.num q)
    (hlast : s.lastKnownScrollY = JNum.num q)
    (hf : s.frozen = false)
    (hoff : jle r.position s.offset = false) :
    (if jgt r.position s.lastKnownScrollY then Dir.down else Dir.up) = Dir.up ∧
    (s.update r).1.classes.pinned = s.classes.pinned ∧
    (s.update r).1.classes.unpinned = s.classes.unpinned ∧
    Event.pin ∉ (s.update r).2 ∧
    Event.unpin ∉ (s.update r).2 := by
  obtain ⟨pos, vh, ch⟩ := r
  simp only at hp hoff
  subst hp
  refine ⟨by simp [jgt, hlast], ?_⟩
  unfold Headroom.update
  cases hob : isOutOfBounds (JNum.num q) vh ch
  case true => simp [hob]
  case false =>
  simp only [hob, Bool.false_eq_true, if_false, hf, hoff]
  obtain ⟨nt1, nt2, nt3, nt4, nt5, nt6, nt7, nt8⟩ := notTop_preserves s
  cases hbb : jge (jadd (JNum.num q) vh) ch
  case false =>
    simp only [hbb, Bool.false_eq_true, if_false]
    obtain ⟨b1, b2, b3, b4, b5, b6, b7, b8⟩ := notBottom_preserves s.notTop.1
    rw [pinStep_noop _ q _ (by rw [b5, nt5, hlast]) (by rw [b6, nt6]; exact hoff)]
    refine ⟨by simp [b1, nt1], by simp [b2, nt2], ?_, ?_⟩ <;>
    · intro hmem
      simp only [List.mem_append, List.not_mem_nil, or_false] at hmem
      rcases hmem with hmem | hmem
      · exact absurd (mem_notTop_events _ _ hmem) (by simp)
      · exact absurd (mem_notBottom_events _ _ hmem) (by simp)
  case true =>
    simp only [hbb, if_true]
    obtain ⟨b1, b2, b3, b4, b5, b6, b7, b8⟩ := bottom_preserves s.notTop.1
    rw [pinStep_noop _ q _ (by rw [b5, nt5, hlast]) (by rw [b6, nt6]; exact hoff)]
    refine ⟨by simp [b1, nt1], by simp [b2, nt2], ?_, ?_⟩ <;>
    · intro hmem
      simp only [List.mem_append, List.not_mem_nil, or_false] at hmem
      rcases hmem with hmem | hmem
      · exact absurd (mem_notTop_events _ _ hmem) (by simp)
      · exact absurd (mem_bottom_events _ _ hmem) (by simp)

/-- C1 counterexample: at the settled state (last position 50, offset 0,
tolerance 0, unpinned), a tick at the same position 50 satisfies every
condition of the claim (equal position, in bounds, not frozen, up-tolerance
exceeded, position above the offset), yet the pin axis does not transition to
pinned and no callback fires. -/
theorem update_equal_position_not_pinned_cex :
    settled50.lastKnownScrollY = JNum.num 50 ∧
    settled50.toleranceExceeded (JNum.num 50) Dir.up = true ∧
    settled50.frozen = false ∧
    isOutOfBounds (JNum.num 50) (JNum.num 500) (JNum.num 2000) = false ∧
    jgt (JNum.num 50) settled50.offset = true ∧
    (settled50.update ⟨JNum.num 50, JNum.num 500, JNum.num 2000⟩).1.classes.pinned = false ∧
    (settled50.update ⟨JNum.num 50, JNum.num 500, JNum.num 2000⟩).2 = [] := by
  decide

/-- C1 witness: the amended statement applied at the settled state and an
equal-position reading. -/
theorem update_equal_position_pin_only_below_offset_witness :
    (if jgt (JNum.num 50) settled50.lastKnownScrollY then Dir.down else Dir.up) = Dir.up ∧
    (settled50.update ⟨JNum.num 50, JNum.num 500, JNum.num 2000⟩).1.classes.pinned
      = settled50.classes.pinned ∧
    (settled50.update ⟨JNum.num 50, JNum.num 500, JNum.num 2000⟩).1.classes.unpinned
      = settled50.classes.unpinned ∧
    Event.pin ∉ (settled50.update ⟨JNum.num 50, JNum.num 500, JNum.num 2000⟩).2 ∧
    Event.unpin ∉ (settled50.update ⟨JNum.num 50, JNum.num 500, JNum.num 2000⟩).2 :=
  update_equal_position_pin_only_below_offset settled50
    ⟨JNum.num 50, JNum.num 500, JNum.num 2000⟩ 50 rfl rfl rfl (by decide)

/-- NaN on the left of `<` compares false against anything. -/
lemma jlt_nan_left (x : JNum) : jlt JNum.nan x = false := by cases x <;> rfl

/-- NaN on the left of `<=` compares false against anything. -/
lemma jle_nan_left (x : JNum) : jle JNum.nan x = false := by cases x <;> rfl

/-- NaN on the left of `>` compares false against anything. -/
lemma jgt_nan_left (x : JNum) : jgt JNum.nan x = false := by cases x <;> rfl

/-- NaN on the left of `>=` compares false against anything. -/
lemma jge_nan_left (x : JNum) : jge JNum.nan x = false := by cases x <;> rfl

/-- NaN absorbs on addition. -/
lemma jadd_nan_left (x : JNum) : jadd JNum.nan x = JNum.nan := by cases x <;> rfl

/-- With a NaN current position both `shouldUnpin` and `shouldPin` are false,
so the pin-axis step does nothing. -/
lemma pinStep_noop_nan (t : Headroom) (te : Bool) :
    (if t.shouldUnpin JNum.nan te then t.unpin
     else if t.shouldPin JNum.nan te then t.pin else (t, [])) = (t, []) := by
  simp [Headroom.shouldUnpin, Headroom.shouldPin, jgt_nan_left, jlt_nan_left, jle_nan_left]

/-- C2 amended: a NaN-position tick on a non-frozen instance is not a no-op.
The out-of-bounds comparisons are false (so the guard never absorbs it), every
classification comparison is false, so the `else` branches run: the top axis is
forced to notTop and the bottom axis to notBottom (firing `onNotTop` /
`onNotBottom` exactly when the top / bottom class was present, i.e. the notTop
/ notBottom class absent), the pin axis is untouched, and `lastKnownScrollY`
becomes NaN. -/
theorem update_nan_forces_notTop_notBottom (s : Headroom) (r : Reading)
    (hp : r.position = JNum.nan) (hf : s.frozen = false) :
    isOutOfBounds r.position r.viewportHeight r.contentHeight = false ∧
    (s.update r).1.classes.notTop = true ∧
    (s.update r).1.classes.notBottom = true ∧
    (s.update r).1.classes.pinned = s.classes.pinned ∧
    (s.update r).1.classes.unpinned = s.classes.unpinned ∧
    (s.update r).1.lastKnownScrollY = JNum.nan ∧
    (Event.notTop ∈ (s.update r).2 ↔ s.classes.notTop = false) ∧
    (Event.notBottom ∈ (s.update r).2 ↔ s.classes.notBottom = false) ∧
    Event.pin ∉ (s.update r).2 ∧
    Event.unpin ∉ (s.update r).2 := by
  obtain ⟨pos, vh, ch⟩ := r
  simp only at hp
  subst hp
  have hob : isOutOfBounds JNum.nan vh ch = false := by
    simp [isOutOfBounds, jlt_nan_left, jadd_nan_left, jgt_nan_left]
  refine ⟨hob, ?_⟩
  unfold Headroom.update
  simp only [hob, Bool.false_eq_true, if_false, hf, jle_nan_left, jadd_nan_left, jge_nan_left,
    jgt_nan_left]
  rw [pinStep_noop_nan]
  obtain ⟨nt1, nt2, nt3, nt4, nt5, nt6, nt7, nt8⟩ := notTop_preserves s
  obtain ⟨b1, b2, b3, b4, b5, b6, b7, b8⟩ := notBottom_preserves s.notTop.1
  refine ⟨by simp [notBottom_sets, b4, notTop_sets], by simp [notBottom_sets], by simp [b1, nt1],
    by simp [b2, nt2], trivial, ?_, ?_, ?_, ?_⟩
  · constructor
    · intro hmem
      simp only [List.mem_append, List.not_mem_nil, or_false] at hmem
      rcases hmem with hmem | hmem
      · exact (notTop_fires_iff s).1 hmem
      · exact absurd (mem_notBottom_events _ _ hmem) (by simp)
    · intro hcls
      simp only [List.mem_append, List.not_mem_nil, or_false]
      exact Or.inl ((notTop_fires_iff s).2 hcls)
  · constructor
    · intro hmem
      simp only [List.mem_append, List.not_mem_nil, or_false] at hmem
      rcases hmem with hmem | hmem
      · exact absurd (mem_notTop_events _ _ hmem) (by simp)
      · rw [← nt4]
        exact (notBottom_fires_iff s.notTop.1).1 hmem
    · intro hcls
      simp only [List.mem_append, List.not_mem_nil, or_false]
      refine Or.inr ((notBottom_fires_iff s.notTop.1).2 ?_)
      rw [nt4]
      exact hcls
  · intro hmem
    simp only [List.mem_append, List.not_mem_nil, or_false] at hmem
    rcases hmem with hmem | hmem
    · exact absurd (mem_notTop_events _ _ hmem) (by simp)
    · exact absurd (mem_notBottom_events _ _ hmem) (by simp)
  · intro hmem
    simp only [List.mem_append, List.not_mem_nil, or_false] at hmem
    rcases hmem with hmem | hmem
    · exact absurd (mem_notTop_events _ _ hmem) (by simp)
    · exact absurd (mem_notBottom_events _ _ hmem) (by simp)

/-- C2 counterexample: at the top state (top class set, last position 0, not
frozen), a NaN-position tick is not a no-op: it fires `onNotTop`, drops the
top class, and overwrites `lastKnownScrollY` with NaN. -/
theorem update_nan_not_noop_cex :
    atTop0.frozen = false ∧
    (atTop0.update ⟨JNum.nan, JNum.num 500, JNum.num 2000⟩).2 = [Event.notTop] ∧
    (atTop0.update ⟨JNum.nan, JNum.num 500, JNum.num 2000⟩).1.classes.top = false ∧
    (atTop0.update ⟨JNum.nan, JNum.num 500, JNum.num 2000⟩).1.lastKnownScrollY = JNum.nan := by
  decide

/-- C2 witness: the amended statement applied at the top state and a NaN
reading. -/
theorem update_nan_forces_notTop_notBottom_witness :
    isOutOfBounds JNum.nan (JNum.num 500) (JNum.num 2000) = false ∧
    (atTop0.update ⟨JNum.nan, JNum.num 500, JNum.num 2000⟩).1.classes.notTop = true ∧
    (atTop0.update ⟨JNum.nan, JNum.num 500, JNum.num 2000⟩).1.classes.notBottom = true ∧
    (atTop0.update ⟨JNum.nan, JNum.num 500, JNum.num 2000⟩).1.classes.pinned
      = atTop0.classes.pinned ∧
    (atTop0.update ⟨JNum.nan, JNum.num 500, JNum.num 2000⟩).1.classes.unpinned
      = atTop0.classes.unpinned ∧
    (atTop0.update ⟨JNum.nan, JNum.num 500, JNum.num 2000⟩).1.lastKnownScrollY = JNum.nan ∧
    (Event.notTop ∈ (atTop0.update ⟨JNum.nan, JNum.num 500, JNum.num 2000⟩).2
      ↔ atTop0.classes.notTop = false) ∧
    (Event.notBottom ∈ (atTop0.update ⟨JNum.nan, JNum.num 500, JNum.num 2000⟩).2
      ↔ atTop0.classes.notBottom = false) ∧
    Event.pin ∉ (atTop0.update ⟨JNum.nan, JNum.num 500, JNum.num 2000⟩).2 ∧
    Event.unpin ∉ (atTop0.update ⟨JNum.nan, JNum.num 500, JNum.num 2000⟩).2 :=
  update_nan_forces_notTop_notBottom atTop0 ⟨JNum.nan, JNum.num 500, JNum.num 2000⟩ rfl rfl

/-- The pin-axis step of `update` is one of: an unpin call, a pin call, or
nothing. -/
lemma pinStep_cases (t : Headroom) (y : JNum) (te : Bool) :
    (if t.shouldUnpin y te then t.unpin else if t.shouldPin y te then t.pin else (t, []))
      = t.unpin ∨
    (if t.shouldUnpin y te then t.unpin else if t.shouldPin y te then t.pin else (t, []))
      = t.pin ∨
    (if t.shouldUnpin y te then t.unpin else if t.shouldPin y te then t.pin else (t, []))
      = (t, []) := by
  split
  · exact Or.inl rfl
  · split
    · exact Or.inr (Or.inl rfl)
    · exact Or.inr (Or.inr rfl)

/-- C7: a reading whose position plus viewport height equals the content height
exactly (position non-negative, instance not frozen) is in bounds, and the tick
transitions the bottom axis to bottom, firing `onBottom` exactly when the
bottom class was absent: the bottom boundary comparison `>=` is inclusive. -/
theorem update_bottom_boundary_inclusive (s : Headroom) (r : Reading) (p v c : ℤ)
    (hp : r.position = JNum.num p) (hv : r.viewportHeight = JNum.num v)
    (hc : r.contentHeight = JNum.num c) (hsum : p + v = c) (hpos : 0 ≤ p)
    (hf : s.frozen = false) :
    isOutOfBounds r.position r.viewportHeight r.contentHeight = false ∧
    (s.update r).1.classes.bottom = true ∧
    (Event.bottom ∈ (s.update r).2 ↔ s.classes.bottom = false) := by
  obtain ⟨pos, vh, ch⟩ := r
  simp only at hp hv hc
  subst hp hv hc
  have hob : isOutOfBounds (JNum.num p) (JNum.num v) (JNum.num c) = false := by
    simp only [isOutOfBounds, jlt, jgt, jadd, Bool.or_eq_false_iff, decide_eq_false_iff_not,
      not_lt]
    omega
  have hbb : jge (jadd (JNum.num p) (JNum.num v)) (JNum.num c) = true := by
    simp [jge, jadd, hsum]
  refine ⟨hob, ?_⟩
  unfold Headroom.update
  simp only [hob, Bool.false_eq_true, if_false, hf, hbb, if_true]
  cases hto : jle (JNum.num p) s.offset <;>
    simp only [hto, Bool.false_eq_true, if_false, if_true]
  case false =>
    obtain ⟨nt1, nt2, nt3, nt4, nt5, nt6, nt7, nt8⟩ := notTop_preserves s
    obtain ⟨bp1, bp2, bp3, bp4, bp5, bp6, bp7, bp8⟩ := bottom_preserves s.notTop.1
    rcases pinStep_cases (s.notTop.1.bottom.1) (JNum.num p)
        (s.toleranceExceeded (JNum.num p)
          (if jgt (JNum.num p) s.lastKnownScrollY then Dir.down else Dir.up)) with hP | hP | hP <;>
      rw [hP]
    · obtain ⟨u1, u2, u3, u4, u5, u6, u7, u8⟩ := unpin_preserves s.notTop.1.bottom.1
      refine ⟨by simp [u3, bottom_sets], ?_⟩
      rw [show s.classes.bottom = s.notTop.1.classes.bottom from nt3.symm,
        ← bottom_fires_iff s.notTop.1]
      constructor
      · intro hmem
        simp only [List.mem_append] at hmem
        rcases hmem with (hmem | hmem) | hmem
        · exact absurd (mem_notTop_events _ _ hmem) (by simp)
        · exact hmem
        · exact absurd (mem_unpin_events _ _ hmem) (by simp)
      · intro hmem
        simp only [List.mem_append]
        exact Or.inl (Or.inr hmem)
    · obtain ⟨u1, u2, u3, u4, u5, u6, u7, u8⟩ := pin_preserves s.notTop.1.bottom.1
      refine ⟨by simp [u3, bottom_sets], ?_⟩
      rw [show s.classes.bottom = s.notTop.1.classes.bottom from nt3.symm,
        ← bottom_fires_iff s.notTop.1]
      constructor
      · intro hmem
        simp only [List.mem_append] at hmem
        rcases hmem with (hmem | hmem) | hmem
        · exact absurd (mem_notTop_events _ _ hmem) (by simp)
        · exact hmem
        · exact absurd (mem_pin_events _ _ hmem) (by simp)
      · intro hmem
        simp only [List.mem_append]
        exact Or.inl (Or.inr hmem)
    · refine ⟨by simp [bottom_sets], ?_⟩
      rw [show s.classes.bottom = s.notTop.1.classes.bottom from nt3.symm,
        ← bottom_fires_iff s.notTop.1]
      constructor
      · intro hmem
        simp only [List.mem_append, List.not_mem_nil, or_false] at hmem
        rcases hmem with hmem | hmem
        · exact absurd (mem_notTop_events _ _ hmem) (by simp)
        · exact hmem
      · intro hmem
        simp only [List.mem_append, List.not_mem_nil, or_false]
        exact Or.inr hmem
  case true =>
    obtain ⟨nt1, nt2, nt3, nt4, nt5, nt6, nt7, nt8⟩ := top_preserves s
    obtain ⟨bp1, bp2, bp3, bp4, bp5, bp6, bp7, bp8⟩ := bottom_preserves s.top.1
    rcases pinStep_cases (s.top.1.bottom.1) (JNum.num p)
        (s.toleranceExceeded (JNum.num p)
          (if jgt (JNum.num p) s.lastKnownScrollY then Dir.down else Dir.up)) with hP | hP | hP <;>
      rw [hP]
    · obtain ⟨u1, u2, u3, u4, u5, u6, u7, u8⟩ := unpin_preserves s.top.1.bottom.1
      refine ⟨by simp [u3, bottom_sets], ?_⟩
      rw [show s.classes.bottom = s.top.1.classes.bottom from nt3.symm,
        ← bottom_fires_iff s.top.1]
      constructor
      · intro hmem
        simp only [List.mem_append] at hmem
        rcases hmem with (hmem | hmem) | hmem
        · exact absurd (mem_top_events _ _ hmem) (by simp)
        · exact hmem
        · exact absurd (mem_unpin_events _ _ hmem) (by simp)
      · intro hmem
        simp only [List.mem_append]
        exact Or.inl (Or.inr hmem)
    · obtain ⟨u1, u2, u3, u4, u5, u6, u7, u8⟩ := pin_preserves s.top.1.bottom.1
      refine ⟨by simp [u3, bottom_sets], ?_⟩
      rw [show s.classes.bottom = s.top.1.classes.bottom from nt3.symm,
        ← bottom_fires_iff s.top.1]
      constructor
      · intro hmem
        simp only [List.mem_append] at hmem
        rcases hmem with (hmem | hmem) | hmem
        · exact absurd (mem_top_events _ _ hmem) (by simp)
        · exact hmem
        · exact absurd (mem_pin_events _ _ hmem) (by simp)
      · intro hmem
        simp only [List.mem_append]
        exact Or.inl (Or.inr hmem)
    · refine ⟨by simp [bottom_sets], ?_⟩
      rw [show s.classes.bottom = s.top.1.classes.bottom from nt3.symm,
        ← bottom_fires_iff s.top.1]
      constructor
      · intro hmem
        simp only [List.mem_append, List.not_mem_nil, or_false] at hmem
        rcases hmem with hmem | hmem
        · exact absurd (mem_top_events _ _ hmem) (by simp)
        · exact hmem
      · intro hmem
        simp only [List.mem_append, List.not_mem_nil, or_false]
        exact Or.inr hmem

/-- C7 witness: from the settled state, reading position 1500 with viewport 500
against content 2000 (exact bottom) is in bounds and fires `onBottom`. -/
theorem update_bottom_boundary_inclusive_witness :
    isOutOfBounds (JNum.num 1500) (JNum.num 500) (JNum.num 2000) = false ∧
    (settled50.update ⟨JNum.num 1500, JNum.num 500, JNum.num 2000⟩).1.classes.bottom = true ∧
    (Event.bottom ∈ (settled50.update ⟨JNum.num 1500, JNum.num 500, JNum.num 2000⟩).2
      ↔ settled50.classes.bottom = false) :=
  update_bottom_boundary_inclusive settled50 ⟨JNum.num 1500, JNum.num 500, JNum.num 2000⟩
    1500 500 2000 rfl rfl rfl (by decide) (by decide) rfl

/-- `>=` against a larger finite threshold implies `>=` against a smaller one. -/
lemma jge_mono_threshold (hi lo : ℤ) (hle : lo ≤ hi) (z : JNum)
    (h : jge z (JNum.num hi) = true) : jge z (JNum.num lo) = true := by
  cases z with
  | nan => simp [jge] at h
  | num a =>
    simp only [jge, decide_eq_true_eq] at h ⊢
    omega

/-- C8 counterexample: two states identical except for the tolerance (0/0
versus 10/10), fed the same in-bounds reading (position 10, offset 10, last
position 5). Under the larger tolerance a pin transition fires (`onPin`);
under the pointwise smaller tolerance no pin or unpin transition occurs at
all — the set of readings triggering a pin/unpin transition is not antitone
in the tolerance. -/
theorem update_tolerance_not_antitone_cex :
    nearOffsetLoTol = { nearOffsetHiTol with
      tolerance := { down := JNum.num 0, up := JNum.num 0 } } ∧
    nearOffsetHiTol.tolerance = { down := JNum.num 10, up := JNum.num 10 } ∧
    (nearOffsetHiTol.update ⟨JNum.num 10, JNum.num 10, JNum.num 100⟩).2 = [Event.pin] ∧
    (nearOffsetLoTol.update ⟨JNum.num 10, JNum.num 10, JNum.num 100⟩).2 = [] ∧
    (nearOffsetLoTol.update ⟨JNum.num 10, JNum.num 10, JNum.num 100⟩).1.classes
      = nearOffsetLoTol.classes := by
  decide

/-- C8 amended: antitonicity does hold one level down, separately for each
decision predicate. With the tolerance pointwise lowered, `toleranceExceeded`
can only switch from false to true, and therefore `shouldUnpin` (resp.
`shouldPin`), evaluated with the tolerance-exceeded flag computed from the
respective tolerance, is antitone: whenever it holds under the larger
tolerance it holds under the smaller. (At the level of fired transitions the
original claim fails, because lowering the tolerance can flip the chosen
branch from pin to unpin, whose class guard then suppresses any callback.) -/
theorem decision_predicates_antitone_in_tolerance (s : Headroom) (d u d' u' : ℤ)
    (y : JNum) (dir : Dir) (hd : d ≤ d') (hu : u ≤ u') :
    (({ s with tolerance := { down := JNum.num d', up := JNum.num u' } }
        : Headroom).toleranceExceeded y dir = true →
      ({ s with tolerance := { down := JNum.num d, up := JNum.num u } }
        : Headroom).toleranceExceeded y dir = true) ∧
    (({ s with tolerance := { down := JNum.num d', up := JNum.num u' } }
        : Headroom).shouldUnpin y
        (({ s with tolerance := { down := JNum.num d', up := JNum.num u' } }
          : Headroom).toleranceExceeded y dir) = true →
      ({ s with tolerance := { down := JNum.num d, up := JNum.num u } }
        : Headroom).shouldUnpin y
        (({ s with tolerance := { down := JNum.num d, up := JNum.num u } }
          : Headroom).toleranceExceeded y dir) = true) ∧
    (({ s with tolerance := { down := JNum.num d', up := JNum.num u' } }
        : Headroom).shouldPin y
        (({ s with tolerance := { down := JNum.num d', up := JNum.num u' } }
          : Headroom).toleranceExceeded y dir) = true →
      ({ s with tolerance := { down := JNum.num d, up := JNum.num u } }
        : Headroom).shouldPin y
        (({ s with tolerance := { down := JNum.num d, up := JNum.num u } }
          : Headroom).toleranceExceeded y dir) = true) := by
  have hte : ({ s with tolerance := { down := JNum.num d', up := JNum.num u' } }
      : Headroom).toleranceExceeded y dir = true →
      ({ s with tolerance := { down := JNum.num d, up := JNum.num u } }
        : Headroom).toleranceExceeded y dir = true := by
    intro h
    unfold Headroom.toleranceExceeded at h ⊢
    cases dir
    · exact jge_mono_threshold d' d hd _ h
    · exact jge_mono_threshold u' u hu _ h
  refine ⟨hte, ?_, ?_⟩
  · intro h
    unfold Headroom.shouldUnpin at h ⊢
    simp only [Bool.and_eq_true] at h ⊢
    exact ⟨h.1, hte h.2⟩
  · intro h
    unfold Headroom.shouldPin at h ⊢
    simp only [Bool.or_eq_true, Bool.and_eq_true] at h ⊢
    rcases h with ⟨h1, h2⟩ | h
    · exact Or.inl ⟨h1, hte h2⟩
    · exact Or.inr h

/-- C8 witness: the amended statement applied at the near-offset state with
tolerances 0/0 versus 10/10, reading position 10, down direction. -/
theorem decision_predicates_antitone_in_tolerance_witness :
    (({ nearOffsetHiTol with tolerance := { down := JNum.num 10, up := JNum.num 10 } }
        : Headroom).toleranceExceeded (JNum.num 10) Dir.down = true →
      ({ nearOffsetHiTol with tolerance := { down := JNum.num 0, up := JNum.num 0 } }
        : Headroom).toleranceExceeded (JNum.num 10) Dir.down = true) ∧
    (({ nearOffsetHiTol with tolerance := { down := JNum.num 10, up := JNum.num 10 } }
        : Headroom).shouldUnpin (JNum.num 10)
        (({ nearOffsetHiTol with tolerance := { down := JNum.num 10, up := JNum.num 10 } }
          : Headroom).toleranceExceeded (JNum.num 10) Dir.down) = true →
      ({ nearOffsetHiTol with tolerance := { down := JNum.num 0, up := JNum.num 0 } }
        : Headroom).shouldUnpin (JNum.num 10)
        (({ nearOffsetHiTol with tolerance := { down := JNum.num 0, up := JNum.num 0 } }
          : Headroom).toleranceExceeded (JNum.num 10) Dir.down) = true) ∧
    (({ nearOffsetHiTol with tolerance := { down := JNum.num 10, up := JNum.num 10 } }
        : Headroom).shouldPin (JNum.num 10)
        (({ nearOffsetHiTol with tolerance := { down := JNum.num 10, up := JNum.num 10 } }
          : Headroom).toleranceExceeded (JNum.num 10) Dir.down) = true →
      ({ nearOffsetHiTol with tolerance := { down := JNum.num 0, up := JNum.num 0 } }
        : Headroom).shouldPin (JNum.num 10)
        (({ nearOffsetHiTol with tolerance := { down := JNum.num 0, up := JNum.num 0 } }
          : Headroom).toleranceExceeded (JNum.num 10) Dir.down) = true) :=
  decision_predicates_antitone_in_tolerance nearOffsetHiTol 0 0 10 10 (JNum.num 10) Dir.down
    (by decide) (by decide)

/-- `unpin` preserves all three class-pair exclusivity invariants. -/
lemma unpin_pairs (s : Headroom) :
    (pinPairOK s.classes = true → pinPairOK s.unpin.1.classes = true) ∧
    (topPairOK s.classes = true → topPairOK s.unpin.1.classes = true) ∧
    (bottomPairOK s.classes = true → bottomPairOK s.unpin.1.classes = true) := by
  unfold Headroom.unpin
  split <;> simp [pinPairOK, topPairOK, bottomPairOK]

/-- `pin` preserves all three class-pair exclusivity invariants. -/
lemma pin_pairs (s : Headroom) :
    (pinPairOK s.classes = true → pinPairOK s.pin.1.classes = true) ∧
    (topPairOK s.classes = true → topPairOK s.pin.1.classes = true) ∧
    (bottomPairOK s.classes = true → bottomPairOK s.pin.1.classes = true) := by
  unfold Headroom.pin
  split <;> simp [pinPairOK, topPairOK, bottomPairOK]

/-- `top` preserves all three class-pair exclusivity invariants. -/
lemma top_pairs (s : Headroom) :
    (pinPairOK s.classes = true → pinPairOK s.top.1.classes = true) ∧
    (topPairOK s.classes = true → topPairOK s.top.1.classes = true) ∧
    (bottomPairOK s.classes = true → bottomPairOK s.top.1.classes = true) := by
  unfold Headroom.top
  split <;> simp [pinPairOK, topPairOK, bottomPairOK]

/-- `notTop` preserves all three class-pair exclusivity invariants. -/
lemma notTop_pairs (s : Headroom) :
    (pinPairOK s.classes = true → pinPairOK s.notTop.1.classes = true) ∧
    (topPairOK s.classes = true → topPairOK s.notTop.1.classes = true) ∧
    (bottomPairOK s.classes = true → bottomPairOK s.notTop.1.classes = true) := by
  unfold Headroom.notTop
  split <;> simp [pinPairOK, topPairOK, bottomPairOK]

/-- `bottom` preserves all three class-pair exclusivity invariants. -/
lemma bottom_pairs (s : Headroom) :
    (pinPairOK s.classes = true → pinPairOK s.bottom.1.classes = true) ∧
    (topPairOK s.classes = true → topPairOK s.bottom.1.classes = true) ∧
    (bottomPairOK s.classes = true → bottomPairOK s.bottom.1.classes = true) := by
  unfold Headroom.bottom
  split <;> simp [pinPairOK, topPairOK, bottomPairOK]

/-- `notBottom` preserves all three class-pair exclusivity invariants. -/
lemma notBottom_pairs (s : Headroom) :
    (pinPairOK s.classes = true → pinPairOK s.notBottom.1.classes = true) ∧
    (topPairOK s.classes = true → topPairOK s.notBottom.1.classes = true) ∧
    (bottomPairOK s.classes = true → bottomPairOK s.notBottom.1.classes = true) := by
  unfold Headroom.notBottom
  split <;> simp [pinPairOK, topPairOK, bottomPairOK]

/-- The whole pin-axis step of `update` preserves the three invariants. -/
lemma pinStep_pairs (t : Headroom) (y : JNum) (te : Bool) :
    (pinPairOK t.classes = true →
      pinPairOK (if t.shouldUnpin y te then t.unpin
        else if t.shouldPin y te then t.pin else (t, [])).1.classes = true) ∧
    (topPairOK t.classes = true →
      topPairOK (if t.shouldUnpin y te then t.unpin
        else if t.shouldPin y te then t.pin else (t, [])).1.classes = true) ∧
    (bottomPairOK t.classes = true →
      bottomPairOK (if t.shouldUnpin y te then t.unpin
        else if t.shouldPin y te then t.pin else (t, [])).1.classes = true) := by
  rcases pinStep_cases t y te with hP | hP | hP <;> rw [hP]
  · exact unpin_pairs t
  · exact pin_pairs t
  · exact ⟨id, id, id⟩

/-- One update tick preserves the three invariants. -/
lemma update_pairs (s : Headroom) (r : Reading) :
    (pinPairOK s.classes = true → pinPairOK (s.update r).1.classes = true) ∧
    (topPairOK s.classes = true → topPairOK (s.update r).1.classes = true) ∧
    (bottomPairOK s.classes = true → bottomPairOK (s.update r).1.classes = true) := by
  unfold Headroom.update
  cases hob : isOutOfBounds r.position r.viewportHeight r.contentHeight
  case true => simp [hob]
  case false =>
  simp only [hob, Bool.false_eq_true, if_false]
  cases hf : s.frozen
  case true => simp [hf]
  case false =>
  simp only [hf, Bool.false_eq_true, if_false]
  cases hto : jle r.position s.offset <;>
    simp only [hto, Bool.false_eq_true, if_false, if_true] <;>
  cases hbb : jge (jadd r.position r.viewportHeight) r.contentHeight <;>
    simp only [hbb, Bool.false_eq_true, if_false, if_true] <;>
  · refine ⟨fun h => ?_, fun h => ?_, fun h => ?_⟩ <;>
    first
    | exact (pinStep_pairs _ _ _).1
        ((notBottom_pairs _).1 ((notTop_pairs _).1 h))
    | exact (pinStep_pairs _ _ _).1
        ((bottom_pairs _).1 ((notTop_pairs _).1 h))
    | exact (pinStep_pairs _ _ _).1
        ((notBottom_pairs _).1 ((top_pairs _).1 h))
    | exact (pinStep_pairs _ _ _).1
        ((bottom_pairs _).1 ((top_pairs _).1 h))
    | exact (pinStep_pairs _ _ _).2.1
        ((notBottom_pairs _).2.1 ((notTop_pairs _).2.1 h))
    | exact (pinStep_pairs _ _ _).2.1
        ((bottom_pairs _).2.1 ((notTop_pairs _).2.1 h))
    | exact (pinStep_pairs _ _ _).2.1
        ((notBottom_pairs _).2.1 ((top_pairs _).2.1 h))
    | exact (pinStep_pairs _ _ _).2.1
        ((bottom_pairs _).2.1 ((top_pairs _).2.1 h))
    | exact (pinStep_pairs _ _ _).2.2
        ((notBottom_pairs _).2.2 ((notTop_pairs _).2.2 h))
    | exact (pinStep_pairs _ _ _).2.2
        ((bottom_pairs _).2.2 ((notTop_pairs _).2.2 h))
    | exact (pinStep_pairs _ _ _).2.2
        ((notBottom_pairs _).2.2 ((top_pairs _).2.2 h))
    | exact (pinStep_pairs _ _ _).2.2
        ((bottom_pairs _).2.2 ((top_pairs _).2.2 h))

/-- Any single operation preserves the three invariants. -/
lemma applyOp_pairs (s : Headroom) (o : Op) :
    (pinPairOK s.classes = true → pinPairOK (applyOp s o).classes = true) ∧
    (topPairOK s.classes = true → topPairOK (applyOp s o).classes = true) ∧
    (bottomPairOK s.classes = true → bottomPairOK (applyOp s o).classes = true) := by
  cases o with
  | update r => exact update_pairs s r
  | pin => exact pin_pairs s
  | unpin => exact unpin_pairs s
  | top => exact top_pairs s
  | notTop => exact notTop_pairs s
  | bottom => exact bottom_pairs s
  | notBottom => exact notBottom_pairs s

/-- C9: each class pair is exclusive along any run — starting from a state
carrying at most one class of a pair (pinned/unpinned, top/notTop,
bottom/notBottom), after any sequence of update ticks and direct transition
calls the element still carries at most one class of that pair. -/
theorem runOps_preserves_pair_invariants (s : Headroom) (ops : List Op) :
    (pinPairOK s.classes = true → pinPairOK (runOps s ops).classes = true) ∧
    (topPairOK s.classes = true → topPairOK (runOps s ops).classes = true) ∧
    (bottomPairOK s.classes = true → bottomPairOK (runOps s ops).classes = true) := by
  induction ops generalizing s with
  | nil => exact ⟨id, id, id⟩
  | cons o os ih =>
    exact ⟨fun h => (ih (applyOp s o)).1 ((applyOp_pairs s o).1 h),
      fun h => (ih (applyOp s o)).2.1 ((applyOp_pairs s o).2.1 h),
      fun h => (ih (applyOp s o)).2.2 ((applyOp_pairs s o).2.2 h)⟩

/-- C9 witness: a fresh instance run through a tick, a direct pin, a tick and a
direct notBottom keeps all three pairs exclusive. -/
theorem runOps_preserves_pair_invariants_witness :
    pinPairOK (runOps (mkHeadroom (JNum.num 0) (ToleranceOption.scalar (JNum.num 0)))
      [Op.update ⟨JNum.num 50, JNum.num 500, JNum.num 2000⟩, Op.pin,
        Op.update ⟨JNum.num 10, JNum.num 500, JNum.num 2000⟩, Op.notBottom]).classes = true ∧
    topPairOK (runOps (mkHeadroom (JNum.num 0) (ToleranceOption.scalar (JNum.num 0)))
      [Op.update ⟨JNum.num 50, JNum.num 500, JNum.num 2000⟩, Op.pin,
        Op.update ⟨JNum.num 10, JNum.num 500, JNum.num 2000⟩, Op.notBottom]).classes = true ∧
    bottomPairOK (runOps (mkHeadroom (JNum.num 0) (ToleranceOption.scalar (JNum.num 0)))
      [Op.update ⟨JNum.num 50, JNum.num 500, JNum.num 2000⟩, Op.pin,
        Op.update ⟨JNum.num 10, JNum.num 500, JNum.num 2000⟩, Op.notBottom]).classes = true :=
  ⟨(runOps_preserves_pair_invariants _ _).1 (by decide),
    (runOps_preserves_pair_invariants _ _).2.1 (by decide),
    (runOps_preserves_pair_invariants _ _).2.2 (by decide)⟩

/-- Once an unpin has been seen, the flag stays set. -/
lemma seenAfter_true (l : List Event) : seenAfter true l = true := by
  induction l with
  | nil => rfl
  | cons e rest ih => cases e <;> simpa [seenAfter]

/-- With the flag already set, any trace satisfies the ordering property. -/
lemma pinAfterUnpin_true (l : List Event) : pinAfterUnpin true l = true := by
  induction l with
  | nil => rfl
  | cons e rest ih => cases e <;> simpa [pinAfterUnpin]

/-- The ordering property splits over an append, threading the seen flag. -/
lemma pinAfterUnpin_append (seen : Bool) (l1 l2 : List Event) :
    pinAfterUnpin seen (l1 ++ l2)
      = (pinAfterUnpin seen l1 && pinAfterUnpin (seenAfter seen l1) l2) := by
  induction l1 generalizing seen with
  | nil => simp [pinAfterUnpin, seenAfter]
  | cons e rest ih =>
    cases e with
    | pin =>
      cases hs : seen <;>
        simp [pinAfterUnpin, seenAfter, ih, pinAfterUnpin_true, seenAfter_true]
    | unpin => simp [pinAfterUnpin, seenAfter, ih, pinAfterUnpin_true, seenAfter_true]
    | top => simp [pinAfterUnpin, seenAfter, ih]
    | notTop => simp [pinAfterUnpin, seenAfter, ih]
    | bottom => simp [pinAfterUnpin, seenAfter, ih]
    | notBottom => simp [pinAfterUnpin, seenAfter, ih]

/-- A trace with no pin event satisfies the ordering property. -/
lemma pinAfterUnpin_of_no_pin (seen : Bool) (l : List Event) (h : Event.pin ∉ l) :
    pinAfterUnpin seen l = true := by
  induction l generalizing seen with
  | nil => rfl
  | cons e rest ih =>
    simp only [List.mem_cons, not_or] at h
    cases e with
    | pin => exact absurd rfl h.1
    | unpin => simpa [pinAfterUnpin] using pinAfterUnpin_true rest
    | top => simpa [pinAfterUnpin] using ih _ h.2
    | notTop => simpa [pinAfterUnpin] using ih _ h.2
    | bottom => simpa [pinAfterUnpin] using ih _ h.2
    | notBottom => simpa [pinAfterUnpin] using ih _ h.2

/-- A trace containing an unpin event sets the seen flag. -/
lemma seenAfter_of_mem (seen : Bool) (l : List Event) (h : Event.unpin ∈ l) :
    seenAfter seen l = true := by
  induction l generalizing seen with
  | nil => simp at h
  | cons e rest ih =>
    cases e with
    | unpin => simpa [seenAfter] using seenAfter_true rest
    | pin =>
      simp only [List.mem_cons, reduceCtorEq, false_or] at h
      simpa [seenAfter] using ih _ h
    | top =>
      simp only [List.mem_cons, reduceCtorEq, false_or] at h
      simpa [seenAfter] using ih _ h
    | notTop =>
      simp only [List.mem_cons, reduceCtorEq, false_or] at h
      simpa [seenAfter] using ih _ h
    | bottom =>
      simp only [List.mem_cons, reduceCtorEq, false_or] at h
      simpa [seenAfter] using ih _ h
    | notBottom =>
      simp only [List.mem_cons, reduceCtorEq, false_or] at h
      simpa [seenAfter] using ih _ h

/-- From a state without the unpinned class, `unpin` always fires. -/
lemma unpin_of_not_unpinned (t : Headroom) (h : t.classes.unpinned = false) :
    t.unpin = ({ t with classes := { t.classes with unpinned := true, pinned := false } },
      [Event.unpin]) := by
  unfold Headroom.unpin
  rw [if_pos]
  simp [h]

/-- From a state without the unpinned class, `pin` is a no-op. -/
lemma pin_of_not_unpinned (t : Headroom) (h : t.classes.unpinned = false) :
    t.pin = (t, []) := by
  unfold Headroom.pin
  rw [if_neg]
  simp [h]

/-- From a state without the unpinned class, the pin-axis step never emits a
pin event, and if it leaves the unpinned class set it emitted an unpin event. -/
lemma pinStep_guard (t : Headroom) (y : JNum) (te : Bool) (h : t.classes.unpinned = false) :
    Event.pin ∉ (if t.shouldUnpin y te then t.unpin
      else if t.shouldPin y te then t.pin else (t, [])).2 ∧
    ((if t.shouldUnpin y te then t.unpin
      else if t.shouldPin y te then t.pin else (t, [])).1.classes.unpinned = true →
      Event.unpin ∈ (if t.shouldUnpin y te then t.unpin
        else if t.shouldPin y te then t.pin else (t, [])).2) := by
  rcases pinStep_cases t y te with hP | hP | hP <;> rw [hP]
  · rw [unpin_of_not_unpinned t h]
    exact ⟨by simp, fun _ => by simp⟩
  · rw [pin_of_not_unpinned t h]
    exact ⟨by simp, fun hc => absurd hc (by simp [h])⟩
  · exact ⟨by simp, fun hc => absurd hc (by simp [h])⟩

/-- One tick from a state without the unpinned class never emits a pin event,
and if it leaves the unpinned class set, it emitted an unpin event. -/
lemma update_pin_guard (s : Headroom) (r : Reading) (h : s.classes.unpinned = false) :
    Event.pin ∉ (s.update r).2 ∧
    ((s.update r).1.classes.unpinned = true → Event.unpin ∈ (s.update r).2) := by
  unfold Headroom.update
  cases hob : isOutOfBounds r.position r.viewportHeight r.contentHeight
  case true => simp [hob, h]
  case false =>
  simp only [hob, Bool.false_eq_true, if_false]
  cases hf : s.frozen
  case true => simp [hf, h]
  case false =>
  simp only [hf, Bool.false_eq_true, if_false]
  cases hto : jle r.position s.offset <;>
    simp only [hto, Bool.false_eq_true, if_false, if_true] <;>
  cases hbb : jge (jadd r.position r.viewportHeight) r.contentHeight <;>
    simp only [hbb, Bool.false_eq_true, if_false, if_true]
  case false.false =>
    obtain ⟨g1, g2⟩ := pinStep_guard (s.notTop.1.notBottom.1) r.position
      (s.toleranceExceeded r.position
        (if jgt r.position s.lastKnownScrollY then Dir.down else Dir.up))
      (by rw [(notBottom_preserves s.notTop.1).2.1, (notTop_preserves s).2.1]; exact h)
    constructor
    · intro hmem
      simp only [List.mem_append] at hmem
      rcases hmem with (hmem | hmem) | hmem
      · exact absurd (mem_notTop_events _ _ hmem) (by simp)
      · exact absurd (mem_notBottom_events _ _ hmem) (by simp)
      · exact g1 hmem
    · intro hcls
      simp only [List.mem_append]
      exact Or.inr (g2 hcls)
  case false.true =>
    obtain ⟨g1, g2⟩ := pinStep_guard (s.notTop.1.bottom.1) r.position
      (s.toleranceExceeded r.position
        (if jgt r.position s.lastKnownScrollY then Dir.down else Dir.up))
      (by rw [(bottom_preserves s.notTop.1).2.1, (notTop_preserves s).2.1]; exact h)
    constructor
    · intro hmem
      simp only [List.mem_append] at hmem
      rcases hmem with (hmem | hmem) | hmem
      · exact absurd (mem_notTop_events _ _ hmem) (by simp)
      · exact absurd (mem_bottom_events _ _ hmem) (by simp)
      · exact g1 hmem
    · intro hcls
      simp only [List.mem_append]
      exact Or.inr (g2 hcls)
  case true.false =>
    obtain ⟨g1, g2⟩ := pinStep_guard (s.top.1.notBottom.1) r.position
      (s.toleranceExceeded r.position
        (if jgt r.position s.lastKnownScrollY then Dir.down else Dir.up))
      (by rw [(notBottom_preserves s.top.1).2.1, (top_preserves s).2.1]; exact h)
    constructor
    · intro hmem
      simp only [List.mem_append] at hmem
      rcases hmem with (hmem | hmem) | hmem
      · exact absurd (mem_top_events _ _ hmem) (by simp)
      · exact absurd (mem_notBottom_events _ _ hmem) (by simp)
      · exact g1 hmem
    · intro hcls
      simp only [List.mem_append]
      exact Or.inr (g2 hcls)
  case true.true =>
    obtain ⟨g1, g2⟩ := pinStep_guard (s.top.1.bottom.1) r.position
      (s.toleranceExceeded r.position
        (if jgt r.position s.lastKnownScrollY then Dir.down else Dir.up))
      (by rw [(bottom_preserves s.top.1).2.1, (top_preserves s).2.1]; exact h)
    constructor
    · intro hmem
      simp only [List.mem_append] at hmem
      rcases hmem with (hmem | hmem) | hmem
      · exact absurd (mem_top_events _ _ hmem) (by simp)
      · exact absurd (mem_bottom_events _ _ hmem) (by simp)
      · exact g1 hmem
    · intro hcls
      simp only [List.mem_append]
      exact Or.inr (g2 hcls)

/-- The ordering invariant propagates along any run of ticks: if an unpin was
already seen, or the unpinned class is absent, every pin event in the emitted
trace is preceded by an unpin event. -/
lemma runUpdates_pinAfterUnpin (rs : List Reading) (s : Headroom) (seen : Bool)
    (h : seen = true ∨ s.classes.unpinned = false) :
    pinAfterUnpin seen (runUpdates s rs).2 = true := by
  induction rs generalizing s seen with
  | nil => rfl
  | cons r rs ih =>
    show pinAfterUnpin seen ((s.update r).2 ++ (runUpdates (s.update r).1 rs).2) = true
    rw [pinAfterUnpin_append]
    rcases h with h | h
    · subst h
      simp [pinAfterUnpin_true, seenAfter_true]
    · obtain ⟨g1, g2⟩ := update_pin_guard s r h
      have h1 : pinAfterUnpin seen (s.update r).2 = true :=
        pinAfterUnpin_of_no_pin seen _ g1
      cases hu : (s.update r).1.classes.unpinned
      case false =>
        have h2 := ih (s.update r).1 (seenAfter seen (s.update r).2) (Or.inr hu)
        simp [h1, h2]
      case true =>
        have hs : seenAfter seen (s.update r).2 = true :=
          seenAfter_of_mem seen _ (g2 hu)
        have h2 := ih (s.update r).1 (seenAfter seen (s.update r).2) (Or.inl hs)
        simp [h1, h2]

/-- C10: from a state carrying neither the pinned nor the unpinned class, along
any sequence of update ticks `onPin` cannot be the first pin-axis callback:
every pin event in the emitted trace is strictly preceded by an unpin event. -/
theorem onPin_not_before_onUnpin (s : Headroom) (rs : List Reading)
    (_hpin : s.classes.pinned = false) (hunpin : s.classes.unpinned = false) :
    pinAfterUnpin false (runUpdates s rs).2 = true :=
  runUpdates_pinAfterUnpin rs s false (Or.inr hunpin)

/-- C10 witness: a fresh instance scrolled down to 50 then back up to 10 emits
a trace (which does contain a pin event) in which the pin is preceded by an
unpin. -/
theorem onPin_not_before_onUnpin_witness :
    pinAfterUnpin false
      (runUpdates (mkHeadroom (JNum.num 0) (ToleranceOption.scalar (JNum.num 0)))
        [⟨JNum.num 50, JNum.num 500, JNum.num 2000⟩,
          ⟨JNum.num 10, JNum.num 500, JNum.num 2000⟩]).2 = true :=
  onPin_not_before_onUnpin _ _ (by decide) (by decide)
